import Mathlib

/-
Verification development for the konstructio/cli-utils repository.

The repository has two components:

* package `cfg` (file cfg.go): a process-local, disk-backed key/value
  store (`Config`) holding a `map[string]interface{}` guarded by an
  RWMutex, persisted to one file via `encoding/gob`, with operations
  `New`, `GetString`, `GetInt`, `GetFloat64`, `GetBool`, `Set`,
  `Finish`, `GetAll`, and the internal `readFromFile` and
  `flushUnsafeLocked`.

* package `stepper` (files stepper.go, errors.go): a terminal progress
  indicator whose `Step.Complete` must fire exactly once; a `uint32`
  counter `done` and a `sync.Once` guard re-completion.

The embedding below is a sequential shallow embedding: the mutex
discipline serializes every public operation, so each Go method is a
pure function from (operation environment, Config, file system) to
(result, Config, file system). Fallible I/O primitives are driven by a
record of booleans (`Env`) saying which primitive calls succeed during
the operation, mirroring the distinct error returns in the source.
-/

namespace Cfg

/-- Values stored in the `map[string]interface{}` of a `Config`.
The public `Set` only admits `string`, `bool` and `float64` (after
normalization), but `GetInt` in the source also has an `int` case, so
the stored-value type keeps that constructor. Go `float64` values are
modelled by `Rat`; no claim exercises rounding of double-precision
arithmetic, only exact conversions and truncation. -/
inductive StoredVal where
  | str (s : String)
  | num (x : Rat)
  | intv (n : Int)
  | boolean (b : Bool)
deriving DecidableEq

/-- Content of one file as seen by the gob codec in `readFromFile` and
`flushUnsafeLocked`: zero bytes, a complete valid gob encoding of a
mapping (such an encoding is never empty), or non-empty bytes that are
not a complete valid encoding (truncated or corrupt content; on such
input `gob.Decode` returns an error other than `io.EOF`, since
`io.EOF` arises only on empty input, which the `stat.Size() > 0` guard
excludes). -/
inductive FileData where
  | empty
  | encoded (m : List (String × StoredVal))
  | corrupt
deriving DecidableEq

/-- The file system: content of the file at each path. A path never
written is an empty (equivalently, not yet created) file, matching the
`O_CREATE` open mode used by `readFromFile`. -/
def FS : Type := String → FileData

/-- Which primitive I/O calls succeed while one operation runs,
mirroring the fallible calls in cfg.go: `os.OpenFile`, `file.Stat`,
`file.Seek`, `file.Truncate`, the gob encode/write, `file.Sync` and
`file.Close`. -/
structure Env where
  openOk : Bool
  statOk : Bool
  seekOk : Bool
  truncateOk : Bool
  writeOk : Bool
  syncOk : Bool
  closeOk : Bool
deriving DecidableEq

/-- Environment in which every primitive I/O call succeeds. -/
def Env.allOk : Env := ⟨true, true, true, true, true, true, true⟩

/-- Error taxonomy of the source: wrapped I/O failures, the gob decode
failure in `readFromFile`, the `unsupported type` error in `Set`, the
`config file already closed` error in `Finish`, and the
`config file not available` error in `flushUnsafeLocked`. -/
inductive Err where
  | ioError
  | decodeError
  | typeError
  | alreadyClosed
  | notAvailable
deriving DecidableEq

/-- The `Config` struct: the in-memory mapping (`data`), whether the
file handle is held (`file`, `true` standing for a non-nil `*os.File`
opened on `path`), and the path. The mutex is not represented: the
embedding is sequential. -/
structure Config where
  data : List (String × StoredVal)
  file : Bool
  path : String
deriving DecidableEq

/-- Go map read `c.data[key]`. -/
def lookupKey (k : String) : List (String × StoredVal) → Option StoredVal
  | [] => none
  | (k2, v) :: rest => if k2 = k then some v else lookupKey k rest

/-- Go map write `c.data[key] = value`. -/
def insertKey (k : String) (v : StoredVal) :
    List (String × StoredVal) → List (String × StoredVal)
  | [] => [(k, v)]
  | (k2, v2) :: rest =>
    if k2 = k then (k, v) :: rest else (k2, v2) :: insertKey k v rest

/-- Inputs a caller can pass to `Set`, one constructor per arm of the
type switch in the source plus the narrower integer widths and the
catch-all shape that fall to its `default` arm. -/
inductive SetVal where
  | vint (n : Int)
  | vint8 (n : Int)
  | vint16 (n : Int)
  | vint32 (n : Int)
  | vint64 (n : Int)
  | vfloat32 (x : Rat)
  | vfloat64 (x : Rat)
  | vstring (s : String)
  | vbool (b : Bool)
  | vother
deriving DecidableEq

/-- The type switch at the top of `Set` (the Type Normalizer): `int`,
`int32`, `int64` and `float32` are converted to `float64`; `string`,
`bool` and `float64` pass through; everything else — including `int8`
and `int16`, which the switch does not list — hits the `default` arm
and is rejected with the `unsupported type` error. -/
def normalizeVal : SetVal → Except Err StoredVal
  | .vint n => .ok (.num (n : Rat))
  | .vint32 n => .ok (.num (n : Rat))
  | .vint64 n => .ok (.num (n : Rat))
  | .vfloat32 x => .ok (.num x)
  | .vstring s => .ok (.str s)
  | .vbool b => .ok (.boolean b)
  | .vfloat64 x => .ok (.num x)
  | .vint8 _ => .error .typeError
  | .vint16 _ => .error .typeError
  | .vother => .error .typeError

/-- `readFromFile`: open with `O_RDWR|O_CREATE`, stat, decode the gob
content when the size is positive (a fresh empty map otherwise), seek
back to the start, then install the decoded map and the new handle on
the receiver. On any failure the receiver is left untouched and no
handle is installed. The file system itself is never written. -/
def readFromFile (w : Env) (c : Config) (fs : FS) : Except Err Config :=
  if w.openOk = false then .error .ioError
  else if w.statOk = false then .error .ioError
  else
    match fs c.path with
    | .corrupt => .error .decodeError
    | .empty =>
      if w.seekOk = false then .error .ioError
      else .ok { c with data := [], file := true }
    | .encoded m =>
      if w.seekOk = false then .error .ioError
      else .ok { c with data := m, file := true }

/-- `New`: build a `Config` holding only the path, then `readFromFile`. -/
def New (w : Env) (path : String) (fs : FS) : Except Err Config :=
  readFromFile w { data := [], file := false, path := path } fs

/-- `flushUnsafeLocked`: fail with `config file not available` when the
handle is gone; otherwise truncate to zero, seek to the start, gob-encode
the whole mapping, and sync. Truncation empties the file; a failed
encode/write leaves partially written (hence corrupt) content. -/
def flushUnsafeLocked (w : Env) (c : Config) (fs : FS) :
    Except Err Unit × FS :=
  if c.file = false then (.error .notAvailable, fs)
  else if w.truncateOk = false then (.error .ioError, fs)
  else if w.seekOk = false then
    (.error .ioError, fun p => if p = c.path then FileData.empty else fs p)
  else if w.writeOk = false then
    (.error .ioError, fun p => if p = c.path then FileData.corrupt else fs p)
  else if w.syncOk = false then
    (.error .ioError, fun p => if p = c.path then FileData.encoded c.data else fs p)
  else
    (.ok (), fun p => if p = c.path then FileData.encoded c.data else fs p)

/-- `Set`: normalize the value (returning the `unsupported type` error
without touching anything when normalization rejects it), write it into
the in-memory map, then flush. The map write happens before the flush,
so a flush failure leaves the new value resident in memory. -/
def Config.Set (w : Env) (c : Config) (fs : FS) (key : String)
    (value : SetVal) : Except Err Unit × Config × FS :=
  match normalizeVal value with
  | .error e => (.error e, c, fs)
  | .ok sv =>
    let c2 : Config := { c with data := insertKey key sv c.data }
    let r := flushUnsafeLocked w c2 fs
    (r.1, c2, r.2)

/-- `Finish`: reject with `config file already closed` when the handle
is already gone (touching neither memory nor disk); otherwise flush,
close the handle, and drop it. On a flush or close failure the handle
is kept. -/
def Config.Finish (w : Env) (c : Config) (fs : FS) :
    Except Err Unit × Config × FS :=
  if c.file = false then (.error .alreadyClosed, c, fs)
  else
    let r := flushUnsafeLocked w c fs
    match r.1 with
    | .error e => (.error e, c, r.2)
    | .ok _ =>
      if w.closeOk = false then (.error .ioError, c, r.2)
      else (.ok (), { c with file := false }, r.2)

/-- `GetString`: read the key, then the `val.(string)` type assertion;
a miss of either kind yields the zero value and `false`. -/
def Config.GetString (c : Config) (key : String) : String × Bool :=
  match lookupKey key c.data with
  | some (.str s) => (s, true)
  | _ => ("", false)

/-- Truncation toward zero of a rational, i.e. the truncating division
of the numerator of the canonical fraction by its denominator. This is
the mathematical truncation; the Go conversion `int(v)` is modelled
separately by `goIntOfFloat64`, which agrees with it only on the
64-bit-representable range. -/
def truncF64 (x : Rat) : Int := Int.tdiv x.num (x.den : Int)

/-- Go conversion `int(v)` for a `float64` `v`, where `int` is 64 bits
wide: truncation toward zero whenever that truncation is representable
in the 64-bit signed range. Out of that range the Go specification
makes the conversion succeed with an implementation-dependent result
(gc on amd64 produces the minimum, arm64 saturates); this model uses
the saturating bound as one admissible such result. The development
relies only on two facts true of every conforming implementation: the
in-range case is exact truncation, and the result always lies in the
64-bit signed range (`goIntOfFloat64_in_range`). -/
def goIntOfFloat64 (x : Rat) : Int :=
  if truncF64 x < -9223372036854775808 then -9223372036854775808
  else if 9223372036854775807 < truncF64 x then 9223372036854775807
  else truncF64 x

/-- `GetInt`: read the key, then the type switch of the source —
`float64` goes through the 64-bit conversion `int(v)`, `int` passes
through, anything else yields the zero value and `false`. -/
def Config.GetInt (c : Config) (key : String) : Int × Bool :=
  match lookupKey key c.data with
  | some (.num x) => (goIntOfFloat64 x, true)
  | some (.intv n) => (n, true)
  | _ => (0, false)

/-- `GetFloat64`: read the key, then the `val.(float64)` assertion. -/
def Config.GetFloat64 (c : Config) (key : String) : Rat × Bool :=
  match lookupKey key c.data with
  | some (.num x) => (x, true)
  | _ => (0, false)

/-- `GetBool`: read the key, then the `val.(bool)` assertion. -/
def Config.GetBool (c : Config) (key : String) : Bool × Bool :=
  match lookupKey key c.data with
  | some (.boolean b) => (b, true)
  | _ => (false, false)

/-- `GetAll`: re-run `readFromFile` (re-opening the file at the stored
path and replacing the in-memory map with the decoded disk content),
then return a shallow copy of the refreshed map. On a reload failure
the receiver is unchanged. -/
def Config.GetAll (w : Env) (c : Config) (fs : FS) :
    Except Err (List (String × StoredVal)) × Config :=
  match readFromFile w c fs with
  | .error e => (.error e, c)
  | .ok c2 => (.ok c2.data, c2)

/-- The type-matching accessor for a stored value: `GetString` for a
stored string, `GetFloat64` for a stored `float64`, `GetInt` for a
stored `int`, `GetBool` for a stored bool, each returning the payload
and `true`. -/
def getMatches (c : Config) (k : String) : StoredVal → Prop
  | .str s => c.GetString k = (s, true)
  | .num x => c.GetFloat64 k = (x, true)
  | .intv n => c.GetInt k = (n, true)
  | .boolean b => c.GetBool k = (b, true)

/-- Whether an optional stored value is present and satisfies `p`. -/
def optAny (p : StoredVal → Bool) : Option StoredVal → Bool
  | none => false
  | some sv => p sv

/-- Tag test mirroring the `val.(string)` assertion. -/
def isTextVal : StoredVal → Bool
  | .str _ => true
  | _ => false

/-- Tag test mirroring the `val.(float64)` assertion. -/
def isNumberVal : StoredVal → Bool
  | .num _ => true
  | _ => false

/-- Tag test mirroring the `val.(bool)` assertion. -/
def isBoolVal : StoredVal → Bool
  | .boolean _ => true
  | _ => false

end Cfg

namespace Stepper

/-- What one `Complete` call returns: `nil`, the error value the caller
passed in (returned back on the first completion), or the
`AlreadyCompletedError` carrying the step name. -/
inductive StepResult where
  | ok
  | failed (msg : String)
  | alreadyCompleted (nm : String)
deriving DecidableEq

/-- The `Step` struct of stepper.go, restricted to the state its
completion contract depends on: the name, the `uint32` counter `done`
(kept below `2 ^ 32`; every increment is taken modulo `2 ^ 32` exactly as
Go unsigned arithmetic wraps), whether the `sync.Once` has fired, and
the completion lines written to the output so far. The periodic
spinner redraw loop is cosmetic, runs on real time, and writes no
completion line, so it is not represented. -/
structure Step where
  name : String
  done : Nat
  onceSpent : Bool
  out : List String
deriving DecidableEq

/-- `New`: a fresh step; no completion has happened. -/
def New (nm : String) : Step :=
  { name := nm, done := 0, onceSpent := false, out := [] }

/-- The completion line the render goroutine prints when it receives
the result: success or failure glyph, name, and the error text. -/
def renderComplete (nm : String) (err : Option String) : String :=
  match err with
  | none => "✅ " ++ nm
  | some m => "🔴 " ++ nm ++ " - error: " ++ m

/-- `Complete`: increment the `uint32` counter `done` (wrapping at
`2 ^ 32`); when the incremented counter exceeds 1 the provisional result
is `AlreadyCompletedError`; then the `sync.Once` body — which runs only
on the first call — delivers the caller error to the render loop
(emitting the completion line exactly once) and overwrites the result
with the caller error. -/
def Step.Complete (s : Step) (err : Option String) : StepResult × Step :=
  let done2 := (s.done + 1) % 4294967296
  let r0 : StepResult :=
    if done2 > 1 then .alreadyCompleted s.name else .ok
  if s.onceSpent then
    (r0, { s with done := done2 })
  else
    (match err with
     | none => StepResult.ok
     | some m => StepResult.failed m,
     { s with done := done2, onceSpent := true,
              out := s.out ++ [renderComplete s.name err] })

/-- Repeat `Complete` with a nil error `n` times, keeping the state. -/
def Step.completeN : Nat → Step → Step
  | 0, s => s
  | n + 1, s => Step.completeN n ((s.Complete none).2)

end Stepper

namespace Cfg

/-- Reading a key immediately after writing it finds the written value. -/
theorem lookupKey_insertKey (k : String) (v : StoredVal)
    (l : List (String × StoredVal)) :
    lookupKey k (insertKey k v l) = some v := by
  induction l with
  | nil => simp [insertKey, lookupKey]
  | cons hd tl ih =>
    by_cases h : hd.1 = k
    · simp [insertKey, lookupKey, h]
    · simp [insertKey, lookupKey, h, ih]

/-- C2: when the primitive open and stat calls succeed and the file at
the path holds non-empty content that is not a complete valid
serialized mapping, `New` fails with the decode error and constructs
no store. -/
theorem open_corrupt_decode_error (w : Env) (p : String) (fs : FS)
    (hopen : w.openOk = true) (hstat : w.statOk = true)
    (hbad : fs p = .corrupt) :
    New w p fs = .error .decodeError := by
  simp [New, readFromFile, hopen, hstat, hbad]

/-- Witness for `open_corrupt_decode_error` at a concrete corrupt file. -/
theorem open_corrupt_decode_error_witness :
    Env.allOk.openOk = true ∧ Env.allOk.statOk = true
    ∧ (fun _ : String => FileData.corrupt) "p" = FileData.corrupt
    ∧ New Env.allOk "p" (fun _ => FileData.corrupt) = .error .decodeError :=
  ⟨rfl, rfl, rfl, open_corrupt_decode_error Env.allOk "p" _ rfl rfl rfl⟩

/-- C3 counterexample: an 8-bit signed integer input is not converted
to `float64` — the type switch of `Set` has no `int8` arm, so the
value falls to the `default` arm, `Set` returns the unsupported-type
error, and nothing is stored. -/
theorem int8_input_rejected_cex :
    (Config.Set Env.allOk ⟨[], true, "p"⟩ (fun _ => FileData.empty) "k"
        (SetVal.vint8 5)).1 = .error .typeError
    ∧ (Config.Set Env.allOk ⟨[], true, "p"⟩ (fun _ => FileData.empty) "k"
        (SetVal.vint8 5)).2.1.data = [] :=
  ⟨rfl, rfl⟩

/-- C3 amended: `Set` converts `int`, `int32`, `int64` and `float32`
inputs to the canonical `float64` representation before storing;
`string`, `bool` and `float64` pass through unchanged; `int8` and
`int16` inputs — despite being signed integers — and every other shape
are rejected with the unsupported-type error, leaving store and file
untouched. -/
theorem normalizer_shapes (w : Env) (c : Config) (fs : FS) (k : String)
    (n : Int) (x : Rat) (s : String) (b : Bool) :
    normalizeVal (.vint n) = .ok (.num (n : Rat))
    ∧ normalizeVal (.vint32 n) = .ok (.num (n : Rat))
    ∧ normalizeVal (.vint64 n) = .ok (.num (n : Rat))
    ∧ normalizeVal (.vfloat32 x) = .ok (.num x)
    ∧ normalizeVal (.vfloat64 x) = .ok (.num x)
    ∧ normalizeVal (.vstring s) = .ok (.str s)
    ∧ normalizeVal (.vbool b) = .ok (.boolean b)
    ∧ normalizeVal (.vint8 n) = .error .typeError
    ∧ normalizeVal (.vint16 n) = .error .typeError
    ∧ normalizeVal .vother = .error .typeError
    ∧ (Config.Set w c fs k (.vint n)).2.1.data
        = insertKey k (.num (n : Rat)) c.data
    ∧ Config.Set w c fs k (.vint8 n) = (.error .typeError, c, fs) :=
  ⟨rfl, rfl, rfl, rfl, rfl, rfl, rfl, rfl, rfl, rfl, rfl, rfl⟩

/-- C4: a `Set` that returns success, on a value the normalizer
admits, is observed by the type-matching accessor as the normalized
value together with `true`. -/
theorem set_get_roundtrip (w : Env) (c : Config) (fs : FS) (k : String)
    (v : SetVal) (sv : StoredVal)
    (hv : normalizeVal v = .ok sv)
    (hok : (Config.Set w c fs k v).1 = .ok ()) :
    getMatches (Config.Set w c fs k v).2.1 k sv := by
  have hdata : (Config.Set w c fs k v).2.1.data = insertKey k sv c.data := by
    simp [Config.Set, hv]
  cases sv with
  | str s => simp [getMatches, Config.GetString, hdata, lookupKey_insertKey]
  | num x => simp [getMatches, Config.GetFloat64, hdata, lookupKey_insertKey]
  | intv n => simp [getMatches, Config.GetInt, hdata, lookupKey_insertKey]
  | boolean b => simp [getMatches, Config.GetBool, hdata, lookupKey_insertKey]

/-- Witness for `set_get_roundtrip` at a concrete string write. -/
theorem set_get_roundtrip_witness :
    normalizeVal (SetVal.vstring "a") = .ok (.str "a")
    ∧ (Config.Set Env.allOk ⟨[], true, "p"⟩ (fun _ => FileData.empty) "k"
        (SetVal.vstring "a")).1 = .ok ()
    ∧ getMatches (Config.Set Env.allOk ⟨[], true, "p"⟩
        (fun _ => FileData.empty) "k" (SetVal.vstring "a")).2.1 "k"
        (.str "a") :=
  ⟨rfl, rfl,
   set_get_roundtrip Env.allOk ⟨[], true, "p"⟩ (fun _ => FileData.empty)
     "k" (SetVal.vstring "a") (.str "a") rfl rfl⟩

/-- C5: a value the normalizer rejects makes `Set` return the
unsupported-type error and leaves the store and the file exactly as
they were; no flush happens. -/
theorem set_unsupported_rejected (w : Env) (c : Config) (fs : FS)
    (k : String) (v : SetVal)
    (hv : normalizeVal v = .error .typeError) :
    Config.Set w c fs k v = (.error .typeError, c, fs) := by
  simp [Config.Set, hv]

/-- Witness for `set_unsupported_rejected` on the catch-all shape with
a non-empty prior mapping. -/
theorem set_unsupported_rejected_witness :
    normalizeVal SetVal.vother = .error .typeError
    ∧ Config.Set Env.allOk ⟨[("a", .boolean true)], true, "p"⟩
        (fun _ => FileData.empty) "k" SetVal.vother
      = (.error .typeError, ⟨[("a", .boolean true)], true, "p"⟩,
         fun _ => FileData.empty) :=
  ⟨rfl,
   set_unsupported_rejected Env.allOk ⟨[("a", .boolean true)], true, "p"⟩
     (fun _ => FileData.empty) "k" SetVal.vother rfl⟩

/-- C6: when `Set` reports an error on a value the normalizer admits
(the only error source after normalization is the flush), the
in-memory mapping nonetheless holds the key bound to the normalized
value — the mutation is not rolled back. -/
theorem set_flush_failure_keeps_memory (w : Env) (c : Config) (fs : FS)
    (k : String) (v : SetVal) (sv : StoredVal) (e : Err)
    (hv : normalizeVal v = .ok sv)
    (hfail : (Config.Set w c fs k v).1 = .error e) :
    lookupKey k (Config.Set w c fs k v).2.1.data = some sv := by
  simp [Config.Set, hv, lookupKey_insertKey]

/-- Witness for `set_flush_failure_keeps_memory`: the sync step of the
flush fails, `Set` reports the wrapped I/O error, and the value is
still resident in memory. -/
theorem set_flush_failure_keeps_memory_witness :
    normalizeVal (SetVal.vbool true) = .ok (.boolean true)
    ∧ (Config.Set ⟨true, true, true, true, true, false, true⟩
        ⟨[], true, "p"⟩ (fun _ => FileData.empty) "k"
        (SetVal.vbool true)).1 = .error .ioError
    ∧ lookupKey "k" (Config.Set ⟨true, true, true, true, true, false, true⟩
        ⟨[], true, "p"⟩ (fun _ => FileData.empty) "k"
        (SetVal.vbool true)).2.1.data = some (.boolean true) :=
  ⟨rfl, rfl,
   set_flush_failure_keeps_memory ⟨true, true, true, true, true, false, true⟩
     ⟨[], true, "p"⟩ (fun _ => FileData.empty) "k" (SetVal.vbool true)
     (.boolean true) .ioError rfl rfl⟩

/-- C7: each typed accessor answers the zero value of its type and
`false` whenever the key is absent or the stored value carries a
different tag; absence and tag mismatch produce literally the same
answer, and no error is ever raised. -/
theorem get_mismatch_like_absent (c1 c2 c3 : Config)
    (k1 k2 k3 : String)
    (h1 : optAny isTextVal (lookupKey k1 c1.data) = false)
    (h2 : optAny isNumberVal (lookupKey k2 c2.data) = false)
    (h3 : optAny isBoolVal (lookupKey k3 c3.data) = false) :
    c1.GetString k1 = ("", false)
    ∧ c2.GetFloat64 k2 = (0, false)
    ∧ c3.GetBool k3 = (false, false) := by
  refine ⟨?_, ?_, ?_⟩
  · cases hl : lookupKey k1 c1.data with
    | none => simp [Config.GetString, hl]
    | some sv =>
      rw [hl] at h1
      cases sv <;> simp_all [Config.GetString, hl, optAny, isTextVal]
  · cases hl : lookupKey k2 c2.data with
    | none => simp [Config.GetFloat64, hl]
    | some sv =>
      rw [hl] at h2
      cases sv <;> simp_all [Config.GetFloat64, hl, optAny, isNumberVal]
  · cases hl : lookupKey k3 c3.data with
    | none => simp [Config.GetBool, hl]
    | some sv =>
      rw [hl] at h3
      cases sv <;> simp_all [Config.GetBool, hl, optAny, isBoolVal]

/-- Witness for `get_mismatch_like_absent`: a number under the key read
as text, a string under the key read as number, and an absent key read
as bool, all answer the zero value and `false`. -/
theorem get_mismatch_like_absent_witness :
    optAny isTextVal (lookupKey "k" ([("k", .num 1)] : List (String × StoredVal))) = false
    ∧ optAny isNumberVal (lookupKey "k" ([("k", .str "a")] : List (String × StoredVal))) = false
    ∧ optAny isBoolVal (lookupKey "k" ([] : List (String × StoredVal))) = false
    ∧ ((⟨[("k", .num 1)], true, "p"⟩ : Config).GetString "k" = ("", false)
       ∧ (⟨[("k", .str "a")], true, "p"⟩ : Config).GetFloat64 "k" = (0, false)
       ∧ (⟨[], true, "p"⟩ : Config).GetBool "k" = (false, false)) :=
  ⟨rfl, rfl, rfl,
   get_mismatch_like_absent ⟨[("k", .num 1)], true, "p"⟩
     ⟨[("k", .str "a")], true, "p"⟩ ⟨[], true, "p"⟩ "k" "k" "k" rfl rfl rfl⟩

/-- The 64-bit conversion always yields a value of the 64-bit signed
range, whichever implementation-dependent result the out-of-range case
takes; every conforming implementation shares this bound, since the Go
`int` type is 64 bits wide. -/
theorem goIntOfFloat64_in_range (x : Rat) :
    -9223372036854775808 ≤ goIntOfFloat64 x
    ∧ goIntOfFloat64 x ≤ 9223372036854775807 := by
  unfold goIntOfFloat64
  by_cases h1 : truncF64 x < -9223372036854775808
  · rw [if_pos h1]
    omega
  · rw [if_neg h1]
    by_cases h2 : 9223372036854775807 < truncF64 x
    · rw [if_pos h2]
      omega
    · rw [if_neg h2]
      omega

/-- C10 counterexample: the Number 1e19 (exactly representable as a
`float64`, reachable via `Set`) has truncation `10 ^ 19`, which exceeds
the maximum of the 64-bit `int` type; `GetInt` still reports
`found = true`, but the integer it returns cannot equal the truncation —
on this input the returned value is forced into the 64-bit range
(`goIntOfFloat64_in_range`), so no conforming implementation returns
the truncation toward zero. -/
theorem getint_out_of_range_cex :
    lookupKey "k" (Config.Set Env.allOk ⟨[], true, "p"⟩
        (fun _ => FileData.empty) "k"
        (SetVal.vfloat64 (mkRat (10 ^ 19) 1))).2.1.data
      = some (.num (mkRat (10 ^ 19) 1))
    ∧ truncF64 (mkRat (10 ^ 19) 1) = 10 ^ 19
    ∧ (9223372036854775807 : Int) < 10 ^ 19
    ∧ ((Config.Set Env.allOk ⟨[], true, "p"⟩
        (fun _ => FileData.empty) "k"
        (SetVal.vfloat64 (mkRat (10 ^ 19) 1))).2.1.GetInt "k").2 = true
    ∧ ((Config.Set Env.allOk ⟨[], true, "p"⟩
        (fun _ => FileData.empty) "k"
        (SetVal.vfloat64 (mkRat (10 ^ 19) 1))).2.1.GetInt "k").1 ≠ 10 ^ 19 := by
  refine ⟨rfl, by decide, by decide, rfl, ?_⟩
  have hb := goIntOfFloat64_in_range (mkRat (10 ^ 19) 1)
  have hv : ((Config.Set Env.allOk ⟨[], true, "p"⟩
      (fun _ => FileData.empty) "k"
      (SetVal.vfloat64 (mkRat (10 ^ 19) 1))).2.1.GetInt "k").1
      = goIntOfFloat64 (mkRat (10 ^ 19) 1) := rfl
  rw [hv]
  have hlit : (9223372036854775807 : Int) < 10 ^ 19 := by decide
  omega

/-- C10 amended: for every store state in which key `k` holds a Number
value `v` whose truncation toward zero is representable in the 64-bit
`int` type, `GetInt(k)` returns that truncation and `true`, succeeding
even when `v` is not integral; for a Number out of that range `GetInt`
still reports `found = true`, but the returned integer is
implementation-dependent and cannot equal the truncation. -/
theorem getint_truncates_number (c : Config) (k : String) (x : Rat)
    (h : lookupKey k c.data = some (.num x))
    (hlo : -9223372036854775808 ≤ truncF64 x)
    (hhi : truncF64 x ≤ 9223372036854775807) :
    c.GetInt k = (truncF64 x, true) := by
  have h1 : ¬ truncF64 x < -9223372036854775808 := by omega
  have h2 : ¬ 9223372036854775807 < truncF64 x := by omega
  simp [Config.GetInt, h, goIntOfFloat64, h1, h2]

/-- Witness for `getint_truncates_number`: the stored number 3.9 is in
range and reads back through `GetInt` as 3 with `true`. -/
theorem getint_truncates_number_witness :
    lookupKey "k" [("k", StoredVal.num (mkRat 39 10))]
      = some (.num (mkRat 39 10))
    ∧ -9223372036854775808 ≤ truncF64 (mkRat 39 10)
    ∧ truncF64 (mkRat 39 10) ≤ 9223372036854775807
    ∧ (⟨[("k", StoredVal.num (mkRat 39 10))], true, "p"⟩ : Config).GetInt "k"
      = (3, true) := by
  refine ⟨rfl, by decide, by decide, ?_⟩
  have h := getint_truncates_number
    ⟨[("k", StoredVal.num (mkRat 39 10))], true, "p"⟩ "k" (mkRat 39 10) rfl
    (by decide) (by decide)
  rw [h]
  decide

end Cfg

namespace Cfg

/-- C1 counterexample: after a successful `Finish`, a `Set` on the
closed store does return an error, yet the in-memory mapping is
mutated — the key is inserted before the flush notices the missing
handle — and a `GetAll` on the closed store re-opens the file and
re-acquires a handle. This refutes the claim that every mutation
leaves the mapping unchanged and that `GetAll` does not re-acquire
the handle. -/
theorem closed_store_set_mutates_cex :
    (Config.Finish Env.allOk ⟨[], true, "p"⟩ (fun _ => FileData.empty)).1
      = .ok ()
    ∧ (Config.Set Env.allOk
        (Config.Finish Env.allOk ⟨[], true, "p"⟩ (fun _ => FileData.empty)).2.1
        (Config.Finish Env.allOk ⟨[], true, "p"⟩ (fun _ => FileData.empty)).2.2
        "k" (SetVal.vstring "v")).1 = .error .notAvailable
    ∧ (Config.Set Env.allOk
        (Config.Finish Env.allOk ⟨[], true, "p"⟩ (fun _ => FileData.empty)).2.1
        (Config.Finish Env.allOk ⟨[], true, "p"⟩ (fun _ => FileData.empty)).2.2
        "k" (SetVal.vstring "v")).2.1.data = [("k", StoredVal.str "v")]
    ∧ (Config.GetAll Env.allOk
        (Config.Finish Env.allOk ⟨[], true, "p"⟩ (fun _ => FileData.empty)).2.1
        (Config.Finish Env.allOk ⟨[], true, "p"⟩ (fun _ => FileData.empty)).2.2).2.file
      = true :=
  ⟨rfl, rfl, rfl, rfl⟩

/-- C1 amended: after a successful `Finish`, a `Set` with a supported
value returns the handle-not-available error and leaves the file
unchanged, but still inserts the normalized value into the in-memory
mapping; a `GetAll` re-opens the file at the stored path and
re-acquires a handle; a direct second `Finish` returns the
already-closed error and performs no I/O. -/
theorem closed_store_behavior (c c1 : Config) (fs fs1 : FS) (k : String)
    (v : SetVal) (sv : StoredVal)
    (hopen : c.file = true)
    (hv : normalizeVal v = .ok sv)
    (hfin : Config.Finish Env.allOk c fs = (.ok (), c1, fs1)) :
    (Config.Set Env.allOk c1 fs1 k v).1 = .error .notAvailable
    ∧ (Config.Set Env.allOk c1 fs1 k v).2.2 = fs1
    ∧ lookupKey k (Config.Set Env.allOk c1 fs1 k v).2.1.data = some sv
    ∧ (Config.GetAll Env.allOk c1 fs1).2.file = true
    ∧ (Config.Finish Env.allOk c1 fs1).1 = .error .alreadyClosed
    ∧ (Config.Finish Env.allOk c1 fs1).2.2 = fs1 := by
  have hfin2 : Config.Finish Env.allOk c fs
      = (.ok (), { c with file := false },
         fun p => if p = c.path then FileData.encoded c.data else fs p) := by
    simp [Config.Finish, flushUnsafeLocked, hopen, Env.allOk]
  rw [hfin2] at hfin
  injection hfin with h1 h2
  injection h2 with hc hf
  subst hc
  subst hf
  refine ⟨?_, ?_, ?_, ?_, ?_, ?_⟩
  · simp [Config.Set, hv, flushUnsafeLocked]
  · simp [Config.Set, hv, flushUnsafeLocked]
  · simp [Config.Set, hv, flushUnsafeLocked, lookupKey_insertKey]
  · simp [Config.GetAll, readFromFile, Env.allOk]
  · simp [Config.Finish]
  · simp [Config.Finish]

/-- Witness for `closed_store_behavior` on a concrete store, file and
value. -/
theorem closed_store_behavior_witness :
    (Config.Set Env.allOk ⟨[], false, "p"⟩
        (fun p => if p = "p" then FileData.encoded [] else FileData.empty)
        "k" (SetVal.vstring "v")).1 = .error .notAvailable
    ∧ (Config.Set Env.allOk ⟨[], false, "p"⟩
        (fun p => if p = "p" then FileData.encoded [] else FileData.empty)
        "k" (SetVal.vstring "v")).2.2
      = (fun p => if p = "p" then FileData.encoded [] else FileData.empty)
    ∧ lookupKey "k" (Config.Set Env.allOk ⟨[], false, "p"⟩
        (fun p => if p = "p" then FileData.encoded [] else FileData.empty)
        "k" (SetVal.vstring "v")).2.1.data = some (.str "v")
    ∧ (Config.GetAll Env.allOk ⟨[], false, "p"⟩
        (fun p => if p = "p" then FileData.encoded [] else FileData.empty)).2.file
      = true
    ∧ (Config.Finish Env.allOk ⟨[], false, "p"⟩
        (fun p => if p = "p" then FileData.encoded [] else FileData.empty)).1
      = .error .alreadyClosed
    ∧ (Config.Finish Env.allOk ⟨[], false, "p"⟩
        (fun p => if p = "p" then FileData.encoded [] else FileData.empty)).2.2
      = (fun p => if p = "p" then FileData.encoded [] else FileData.empty) :=
  closed_store_behavior ⟨[], true, "p"⟩ ⟨[], false, "p"⟩
    (fun _ => FileData.empty)
    (fun p => if p = "p" then FileData.encoded [] else FileData.empty)
    "k" (SetVal.vstring "v") (.str "v") rfl rfl rfl

/-- C8: with every primitive I/O call succeeding, a `Set` of a value
the normalizer admits succeeds, the following `Finish` succeeds, and a
fresh `New` on the same path decodes the flushed file into a store in
which the type-matching accessor answers the normalized value and
`true`. -/
theorem set_close_reopen_roundtrip (c c3 : Config) (fs : FS) (k : String)
    (v : SetVal) (sv : StoredVal)
    (hopen : c.file = true)
    (hv : normalizeVal v = .ok sv)
    (hnew : New Env.allOk c.path
        (Config.Finish Env.allOk (Config.Set Env.allOk c fs k v).2.1
            (Config.Set Env.allOk c fs k v).2.2).2.2
        = .ok c3) :
    (Config.Set Env.allOk c fs k v).1 = .ok ()
    ∧ (Config.Finish Env.allOk (Config.Set Env.allOk c fs k v).2.1
        (Config.Set Env.allOk c fs k v).2.2).1 = .ok ()
    ∧ getMatches c3 k sv := by
  have hset : Config.Set Env.allOk c fs k v
      = (.ok (), { c with data := insertKey k sv c.data },
         fun p => if p = c.path
           then FileData.encoded (insertKey k sv c.data) else fs p) := by
    simp [Config.Set, hv, flushUnsafeLocked, hopen, Env.allOk]
  rw [hset] at hnew ⊢
  have hfin : Config.Finish Env.allOk
      { c with data := insertKey k sv c.data }
      (fun p => if p = c.path
        then FileData.encoded (insertKey k sv c.data) else fs p)
      = (.ok (), { c with data := insertKey k sv c.data, file := false },
         fun p => if p = c.path
           then FileData.encoded (insertKey k sv c.data) else fs p) := by
    simp [Config.Finish, flushUnsafeLocked, hopen, Env.allOk]
    funext p
    by_cases hp : p = c.path <;> simp [hp]
  rw [hfin] at hnew ⊢
  have hc3 : c3 = ⟨insertKey k sv c.data, true, c.path⟩ := by
    rw [New, readFromFile] at hnew
    simp [Env.allOk] at hnew
    exact hnew.symm
  refine ⟨rfl, rfl, ?_⟩
  subst hc3
  cases sv with
  | str s => simp [getMatches, Config.GetString, lookupKey_insertKey]
  | num x => simp [getMatches, Config.GetFloat64, lookupKey_insertKey]
  | intv n => simp [getMatches, Config.GetInt, lookupKey_insertKey]
  | boolean b => simp [getMatches, Config.GetBool, lookupKey_insertKey]

/-- Witness for `set_close_reopen_roundtrip`: write a boolean, close,
reopen the same path, read it back. -/
theorem set_close_reopen_roundtrip_witness :
    (Config.Set Env.allOk ⟨[], true, "p"⟩ (fun _ => FileData.empty) "k"
        (SetVal.vbool true)).1 = .ok ()
    ∧ (Config.Finish Env.allOk
        (Config.Set Env.allOk ⟨[], true, "p"⟩ (fun _ => FileData.empty) "k"
          (SetVal.vbool true)).2.1
        (Config.Set Env.allOk ⟨[], true, "p"⟩ (fun _ => FileData.empty) "k"
          (SetVal.vbool true)).2.2).1 = .ok ()
    ∧ getMatches ⟨[("k", .boolean true)], true, "p"⟩ "k" (.boolean true) :=
  set_close_reopen_roundtrip ⟨[], true, "p"⟩
    ⟨[("k", .boolean true)], true, "p"⟩ (fun _ => FileData.empty) "k"
    (SetVal.vbool true) (.boolean true) rfl rfl rfl

end Cfg

namespace Stepper

/-- One `Complete` call advances the wrapped counter by one,
whichever branch runs. -/
theorem complete_done (s : Step) (e : Option String) :
    ((s.Complete e).2).done = (s.done + 1) % 4294967296 := by
  cases h : s.onceSpent <;> cases e <;> simp [Step.Complete, h]

/-- After any `Complete` call the one-shot guard has fired. -/
theorem complete_spent (s : Step) (e : Option String) :
    ((s.Complete e).2).onceSpent = true := by
  cases h : s.onceSpent <;> cases e <;> simp [Step.Complete, h]

/-- After `n` nil completions the counter holds the call count modulo
`2 ^ 32`, the wrap of the Go `uint32` field. -/
theorem completeN_done (n : Nat) (s : Step) (hs : s.done < 4294967296) :
    (Step.completeN n s).done = (s.done + n) % 4294967296 := by
  induction n generalizing s with
  | zero => simpa [Step.completeN] using (Nat.mod_eq_of_lt hs).symm
  | succ m ih =>
    have h1 : Step.completeN (m + 1) s
        = Step.completeN m ((s.Complete none).2) := rfl
    rw [h1, ih _ (by rw [complete_done]; exact Nat.mod_lt _ (by norm_num)),
      complete_done, Nat.mod_add_mod]
    congr 1
    omega

/-- Peeling one call off a repeated completion. -/
theorem completeN_succ (n : Nat) (s : Step) :
    Step.completeN (n + 1) s = Step.completeN n ((s.Complete none).2) := rfl

/-- The one-shot guard stays fired across repeated completions. -/
theorem completeN_spent (n : Nat) (s : Step) (h : s.onceSpent = true) :
    (Step.completeN n s).onceSpent = true := by
  induction n generalizing s with
  | zero => exact h
  | succ m ih => exact ih _ (complete_spent s none)

/-- C9: evaluation of the code at the failing input. Because `done` is
a `uint32`, the counter wraps after `2 ^ 32` increments: on a fresh
step, call number `2 ^ 32` to `Complete` (the input below performs the
`2 ^ 32 - 1` preceding calls) finds the wrapped counter at zero, skips
the already-completed branch, and returns nil without emitting output
— a silent success, where the comment above `Complete` promises an
`AlreadyCompletedError` for every subsequent call. -/
theorem complete_wraparound_returns_nil :
    ((Step.completeN 4294967295 (Stepper.New "deploy")).Complete none).1
      = StepResult.ok
    ∧ ((Step.completeN 4294967295 (Stepper.New "deploy")).Complete none).2.out
      = (Step.completeN 4294967295 (Stepper.New "deploy")).out := by
  have hd : (Step.completeN 4294967295 (Stepper.New "deploy")).done
      = 4294967295 := by
    have h := completeN_done 4294967295 (Stepper.New "deploy")
      (by norm_num [Stepper.New])
    simpa [Stepper.New] using h
  have hs : (Step.completeN 4294967295 (Stepper.New "deploy")).onceSpent
      = true := by
    rw [show (4294967295 : Nat) = 4294967294 + 1 from by norm_num,
      completeN_succ]
    exact completeN_spent _ _ (complete_spent _ none)
  generalize hg : Step.completeN 4294967295 (Stepper.New "deploy") = s at hd hs ⊢
  cases s with
  | mk nm d sp o =>
    simp only at hd hs
    subst hd
    subst hs
    constructor <;> simp [Step.Complete]

end Stepper
